import Mathlib

/-!
Verification development for the orchestrator Go client SDK.

The repository contains two parallel client implementations of the same
orchestrator REST API:

* the "integer-code" client (package under `src/client` plus the facade files
  sharing its `APIResponse` with `Code APIResponseCode`, an `int` whose zero
  value `ERROR = 0` and success value `OK = 1`), and
* the "string-code" client (the files declaring `APIResponse` with
  `Code string`, whose decoder `parseAPIResponse` compares `Code` against the
  literal `"ERROR"`).

Below, the data model and the response-handling logic of both clients are
embedded shallowly: HTTP transport is abstracted away, and each operation
method is modelled as the pure function from the already-decoded response
envelope to the method's result.  Go slices and maps are modelled as
`Option (List _)` so that the nil collection (`none`) stays distinct from the
empty collection (`some []`), exactly as in Go.
-/

namespace Orchestrator

/-- A decoded Go `interface{}` value, as produced by `encoding/json` decoding
and as passed around in the `Details` field of the response envelopes.
`float64` carries the integral value of a JSON number (the lag and code values
exercised by the claims are integral); `int64` and `int` are the other numeric
flavors that a hand-constructed `Details` value may carry. -/
inductive GoValue where
  | null : GoValue
  | bool (b : Bool) : GoValue
  | float64 (v : Int) : GoValue
  | int64 (v : Int) : GoValue
  | int (v : Int) : GoValue
  | str (s : String) : GoValue
  | arr (elems : List GoValue) : GoValue
  | obj (fields : List (String × GoValue)) : GoValue
deriving Repr, BEq, Inhabited

/-- A Go slice: `none` is the nil slice, `some l` a non-nil slice with the
given elements. -/
def GoSlice (α : Type) : Type := Option (List α)

/-- A Go map, modelled by its entry list: `none` is the nil map. -/
def GoMap (α β : Type) : Type := Option (List (α × β))

/-! ## Models of the Go standard-library string helpers used by the client -/

/-- Core loop of `strings.Split` for a one-character separator: `acc` holds
the (reversed) characters of the current field. -/
def splitCharsAux (sep : Char) : List Char → List Char → List (List Char)
  | [], acc => [acc.reverse]
  | c :: cs, acc =>
      if c = sep then acc.reverse :: splitCharsAux sep cs []
      else splitCharsAux sep cs (c :: acc)

/-- Go `strings.Split(s, sep)` for a one-character separator `sep`. -/
def goSplit (sep : Char) (s : String) : List String :=
  (splitCharsAux sep s.data []).map String.mk

/-- Go `strings.HasSuffix`. -/
def goHasSuffix (s suffix : String) : Bool :=
  suffix.data.reverse.isPrefixOf s.data.reverse

/-- Go `strings.TrimSuffix`: removes one trailing occurrence of `suffix`
when present, otherwise returns `s` unchanged. -/
def goTrimSuffix (s suffix : String) : String :=
  if goHasSuffix s suffix then
    String.mk (s.data.take (s.data.length - suffix.data.length))
  else s

/-- The decimal digit character for `d < 10`. -/
def digitChar (d : Nat) : Char := Char.ofNat (48 + d)

/-- Fuelled digit-emitting loop of decimal formatting (`fuel ≥ n` suffices for
the fuel never to run out). -/
def natDecimalAux : Nat → Nat → List Char → List Char
  | 0, _, acc => acc
  | Nat.succ fuel, n, acc =>
      if n = 0 then acc
      else natDecimalAux fuel (n / 10) (digitChar (n % 10) :: acc)

/-- Decimal representation of a natural number, as printed by Go `%d`. -/
def natDecimal (n : Nat) : List Char :=
  if n = 0 then ['0'] else natDecimalAux n n []

/-- Decimal representation of a Go `int`, as printed by Go `%d`. -/
def intDecimal (i : Int) : List Char :=
  if i < 0 then '-' :: natDecimal i.natAbs else natDecimal i.toNat

/-- Value of a list of decimal digit characters. -/
def digitsToNat (ds : List Char) : Nat :=
  ds.foldl (fun a c => 10 * a + (c.toNat - 48)) 0

/-- Sign handling of `fmt` integer scanning: one optional leading `-` or `+`;
the `Bool` is true for a negative sign. -/
def scanSign : List Char → Bool × List Char
  | [] => (false, [])
  | c :: r =>
      if c = '-' then (true, r)
      else if c = '+' then (false, r)
      else (false, c :: r)

/-- Models `fmt.Sscanf(s, "%d", &port)` scanning into a 64-bit Go `int`:
leading blanks are skipped, an optional sign and then a maximal run of decimal
digits are consumed (at least one digit is required), the resulting value must
fit in an `int64`, and any remaining input after the digits is ignored. -/
def scanInt (s : String) : Option Int :=
  let cs := s.data.dropWhile (fun c => c == ' ' || c == '\t')
  let signed := scanSign cs
  let ds := signed.2.takeWhile Char.isDigit
  if ds.isEmpty then none
  else
    let n : Int := (if signed.1 then -1 else 1) * (digitsToNat ds : Int)
    if -(2 ^ 63) ≤ n ∧ n < 2 ^ 63 then some n else none

/-! ## InstanceKey -/

/-- A unique identifier for a database instance (Go struct `InstanceKey`). -/
structure InstanceKey where
  Hostname : String
  Port : Int
deriving Repr, DecidableEq, Inhabited

/-- Go method `InstanceKey.String()`: formats the key as `hostname:port` via
`fmt.Sprintf("%s:%d", ...)`. -/
def InstanceKey.toString (key : InstanceKey) : String :=
  key.Hostname ++ ":" ++ String.mk (intDecimal key.Port)

/-- Go `ParseInstanceKey`: splits on `":"`, requires exactly two parts, and
scans the second part with `fmt.Sscanf(parts[1], "%d", &port)`. -/
def ParseInstanceKey (hostPort : String) : Except String InstanceKey :=
  match goSplit ':' hostPort with
  | [host, portStr] =>
      match scanInt portStr with
      | none => Except.error ("invalid port in instance key: " ++ portStr)
      | some port => Except.ok ⟨host, port⟩
  | _ => Except.error ("invalid instance key format: " ++ hostPort)

/-! ## The integer-code client's response envelope -/

/-- Go `APIResponseCode` is an `int`; `ERROR` and `OK` below are its two named
constants. -/
abbrev APIResponseCode := Int

/-- The error discriminant: first `iota` constant, hence the `int` zero value. -/
def ERROR : APIResponseCode := 0

/-- The success discriminant: second `iota` constant. -/
def OK : APIResponseCode := 1

/-- The integer-code client's envelope `APIResponse`. -/
structure APIResponse where
  Code : APIResponseCode
  Message : String
  Details : GoValue
deriving Repr, Inhabited

/-- First binding of a JSON object key (object keys are assumed unique). -/
def lookupField (fields : List (String × GoValue)) (key : String) : Option GoValue :=
  (fields.find? (fun kv => kv.1 == key)).map Prod.snd

/-- Unmarshalling of a JSON value into a Go `string` field: an absent or null
value leaves the zero value `""`; a non-string value is a decode error. -/
def decodeStringField : Option GoValue → Except String String
  | none => Except.ok ""
  | some GoValue.null => Except.ok ""
  | some (GoValue.str s) => Except.ok s
  | some _ => Except.error "cannot unmarshal into field of type string"

/-- Unmarshalling of a JSON value into a Go `bool` field. -/
def decodeBoolField : Option GoValue → Except String Bool
  | none => Except.ok false
  | some GoValue.null => Except.ok false
  | some (GoValue.bool b) => Except.ok b
  | some _ => Except.error "cannot unmarshal into field of type bool"

/-- Unmarshalling of a JSON value into a Go integer field.  Marshalling an
`interface{}` tree and re-unmarshalling renders every numeric flavor as a JSON
number, so all three numeric constructors are accepted here. -/
def decodeIntField : Option GoValue → Except String Int
  | none => Except.ok 0
  | some GoValue.null => Except.ok 0
  | some (GoValue.float64 v) => Except.ok v
  | some (GoValue.int64 v) => Except.ok v
  | some (GoValue.int v) => Except.ok v
  | some _ => Except.error "cannot unmarshal into field of type int"

/-- Models `json.Unmarshal(body, &response)` for the integer-code client's
`APIResponse`: a missing `Code` key leaves the field at the `int` zero value
`0 = ERROR`, a missing `Message` leaves `""`, a missing `Details` leaves the
nil interface value. -/
def decodeAPIResponse (body : GoValue) : Except String APIResponse :=
  match body with
  | GoValue.obj fields =>
      match decodeIntField (lookupField fields "Code") with
      | Except.error e => Except.error e
      | Except.ok code =>
          match decodeStringField (lookupField fields "Message") with
          | Except.error e => Except.error e
          | Except.ok msg =>
              Except.ok ⟨code, msg, (lookupField fields "Details").getD GoValue.null⟩
  | _ => Except.error "cannot unmarshal into APIResponse"

/-! ## Typed domain records and the conversion helpers -/

/-- The fields of the Go `Instance` record that the claims exercise.  The Go
struct carries many further fields; all of them decode the same way (absent
fields keep zero values, unknown JSON fields are ignored) and none plays a
role in any claim, so they are not repeated here. -/
structure Instance where
  Key : InstanceKey
  ReadOnly : Bool
  ClusterName : String
deriving Repr, DecidableEq, Inhabited

/-- Unmarshalling of a JSON value into an `InstanceKey` struct. -/
def decodeInstanceKeyValue : GoValue → Except String InstanceKey
  | GoValue.null => Except.ok ⟨"", 0⟩
  | GoValue.obj fields =>
      match decodeStringField (lookupField fields "Hostname") with
      | Except.error e => Except.error e
      | Except.ok h =>
          match decodeIntField (lookupField fields "Port") with
          | Except.error e => Except.error e
          | Except.ok p => Except.ok ⟨h, p⟩
  | _ => Except.error "cannot unmarshal into InstanceKey"

/-- Unmarshalling of a JSON value into an `Instance` struct. -/
def decodeInstance : GoValue → Except String Instance
  | GoValue.obj fields =>
      match
        (match lookupField fields "Key" with
          | none => Except.ok (⟨"", 0⟩ : InstanceKey)
          | some kv => decodeInstanceKeyValue kv) with
      | Except.error e => Except.error e
      | Except.ok key =>
          match decodeBoolField (lookupField fields "ReadOnly") with
          | Except.error e => Except.error e
          | Except.ok ro =>
              match decodeStringField (lookupField fields "ClusterName") with
              | Except.error e => Except.error e
              | Except.ok cn => Except.ok ⟨key, ro, cn⟩
  | _ => Except.error "cannot unmarshal into Instance"

/-- Element-by-element decoding of a JSON array into `[]Instance`. -/
def decodeInstanceList : List GoValue → Except String (List Instance)
  | [] => Except.ok []
  | v :: vs =>
      match decodeInstance v with
      | Except.error e => Except.error e
      | Except.ok i => (decodeInstanceList vs).map (fun rest => i :: rest)

/-- Unmarshalling of a JSON value into a Go `[]Instance` variable that starts
out nil: JSON null is a no-op (the slice stays nil), a JSON array produces a
non-nil slice. -/
def unmarshalInstanceSlice : GoValue → Except String (GoSlice Instance)
  | GoValue.null => Except.ok none
  | GoValue.arr elems => (decodeInstanceList elems).map some
  | _ => Except.error "cannot unmarshal into a slice of Instance"

/-- Go `convertToInstance`: nil data is rejected, everything else is
marshalled and re-unmarshalled into an `Instance`. -/
def convertToInstance (data : GoValue) : Except String Instance :=
  match data with
  | GoValue.null => Except.error "nil data"
  | d => (decodeInstance d).mapError
      (fun e => "failed to unmarshal to Instance: " ++ e)

/-- Go `convertToInstanceSlice`: nil data yields the empty (non-nil) slice;
otherwise the data is marshalled and re-unmarshalled into `[]Instance`. -/
def convertToInstanceSlice (data : GoValue) : Except String (GoSlice Instance) :=
  match data with
  | GoValue.null => Except.ok (some [])
  | d => (unmarshalInstanceSlice d).mapError
      (fun e => "failed to unmarshal to a slice of Instance: " ++ e)

/-- Element-by-element decoding of a JSON array into `[]string`. -/
def decodeStringList : List GoValue → Except String (List String)
  | [] => Except.ok []
  | v :: vs =>
      match v with
      | GoValue.str s => (decodeStringList vs).map (fun rest => s :: rest)
      | _ => Except.error "cannot unmarshal into string"

/-- Go `convertToStringSlice`: nil data yields the empty (non-nil) slice. -/
def convertToStringSlice (data : GoValue) : Except String (GoSlice String) :=
  match data with
  | GoValue.null => Except.ok (some [])
  | GoValue.arr elems => (decodeStringList elems).map some
  | _ => Except.error "failed to unmarshal to a slice of string"

/-- Element-by-element decoding of a JSON array into `[]InstanceKey`. -/
def decodeInstanceKeyList : List GoValue → Except String (List InstanceKey)
  | [] => Except.ok []
  | v :: vs =>
      match decodeInstanceKeyValue v with
      | Except.error e => Except.error e
      | Except.ok k => (decodeInstanceKeyList vs).map (fun rest => k :: rest)

/-- Field-by-field decoding of a JSON object into `map[string][]InstanceKey`. -/
def decodePoolFields : List (String × GoValue) →
    Except String (List (String × List InstanceKey))
  | [] => Except.ok []
  | (k, v) :: kvs =>
      match
        (match v with
          | GoValue.null => Except.ok ([] : List InstanceKey)
          | GoValue.arr elems => decodeInstanceKeyList elems
          | _ => Except.error "cannot unmarshal into a slice of InstanceKey") with
      | Except.error e => Except.error e
      | Except.ok ks => (decodePoolFields kvs).map (fun rest => (k, ks) :: rest)

/-- Go `convertToPoolInstancesMap`: nil data yields the empty (non-nil) map;
otherwise each pool name maps to a list of `InstanceKey` objects. -/
def convertToPoolInstancesMap (data : GoValue) :
    Except String (GoMap String (List InstanceKey)) :=
  match data with
  | GoValue.null => Except.ok (some [])
  | GoValue.obj fields => (decodePoolFields fields).map some
  | _ => Except.error "failed to unmarshal to PoolInstancesMap"

/-- Go `convertToBool`: nil data and non-`bool` data are both errors; there is
no stringification fallback here. -/
def convertToBool : GoValue → Except String Bool
  | GoValue.null => Except.error "nil data"
  | GoValue.bool b => Except.ok b
  | _ => Except.error "data is not a bool"

mutual

/-- Go `fmt.Sprint` applied to a decoded value, as used by the lenient
fallback of `GetRaftLeader`.  Composite values are rendered in Go's `%v`
style; the claims only depend on this function being total, not on the exact
rendering. -/
def goSprint : GoValue → String
  | GoValue.null => "<nil>"
  | GoValue.bool b => if b then "true" else "false"
  | GoValue.float64 v => String.mk (intDecimal v)
  | GoValue.int64 v => String.mk (intDecimal v)
  | GoValue.int v => String.mk (intDecimal v)
  | GoValue.str s => s
  | GoValue.arr elems => "[" ++ String.intercalate " " (goSprintList elems) ++ "]"
  | GoValue.obj fields =>
      "map[" ++ String.intercalate " " (goSprintFields fields) ++ "]"

def goSprintList : List GoValue → List String
  | [] => []
  | v :: vs => goSprint v :: goSprintList vs

def goSprintFields : List (String × GoValue) → List String
  | [] => []
  | (k, v) :: kvs => (k ++ ":" ++ goSprint v) :: goSprintFields kvs

end

/-! ## Integer-code client: operation methods

Each method is modelled as the pure function from the decoded envelope to the
method's result; path building and HTTP transport are independent of the
envelope handling and are modelled separately below. -/

/-- Envelope handling of `Client.GetInstance`. -/
def GetInstance (response : APIResponse) : Except String Instance :=
  if response.Code ≠ OK then Except.error ("API error: " ++ response.Message)
  else
    match response.Details with
    | GoValue.null => Except.error "no instance data in response"
    | d =>
        match convertToInstance d with
        | Except.error e => Except.error ("failed to convert response: " ++ e)
        | Except.ok i => Except.ok i

/-- Envelope handling of `Client.GetInstanceReplicas`. -/
def GetInstanceReplicas (response : APIResponse) : Except String (GoSlice Instance) :=
  if response.Code ≠ OK then Except.error ("API error: " ++ response.Message)
  else convertToInstanceSlice response.Details

/-- Envelope handling of `Client.InMaintenance`. -/
def InMaintenance (response : APIResponse) : Except String Bool :=
  if response.Code ≠ OK then Except.error ("API error: " ++ response.Message)
  else convertToBool response.Details

/-- Envelope handling of `Client.GetRaftLeader`: nil details yield `""`, a
string is returned as is, and any other representation is stringified via
`fmt.Sprint` instead of failing. -/
def GetRaftLeader (response : APIResponse) : Except String String :=
  if response.Code ≠ OK then Except.error ("API error: " ++ response.Message)
  else
    match response.Details with
    | GoValue.null => Except.ok ""
    | GoValue.str s => Except.ok s
    | d => Except.ok (goSprint d)

/-- Envelope handling of `Client.GetClusterPoolInstancesForPool`: the string
entries are parsed one by one and entries whose parse fails are skipped with
`continue`. -/
def GetClusterPoolInstancesForPool (response : APIResponse) :
    Except String (List InstanceKey) :=
  if response.Code ≠ OK then Except.error ("API error: " ++ response.Message)
  else
    match convertToStringSlice response.Details with
    | Except.error e => Except.error e
    | Except.ok strSlice =>
        Except.ok ((strSlice.getD []).filterMap
          (fun s => (ParseInstanceKey s).toOption))

/-- Envelope handling of `Client.GetHeuristicClusterPoolInstancesForPool`,
textually identical to `GetClusterPoolInstancesForPool` in the source. -/
def GetHeuristicClusterPoolInstancesForPool (response : APIResponse) :
    Except String (List InstanceKey) :=
  if response.Code ≠ OK then Except.error ("API error: " ++ response.Message)
  else
    match convertToStringSlice response.Details with
    | Except.error e => Except.error e
    | Except.ok strSlice =>
        Except.ok ((strSlice.getD []).filterMap
          (fun s => (ParseInstanceKey s).toOption))

/-- Envelope handling of `Client.GetHeuristicClusterPoolLagForPool`: nil
details yield `0`; a numeric value of any of the three arrival flavors is
normalized to `int64` by an explicit type switch; anything else is an error
(the Go message interpolates the dynamic type via `%T`). -/
def GetHeuristicClusterPoolLagForPool (response : APIResponse) : Except String Int :=
  if response.Code ≠ OK then Except.error ("API error: " ++ response.Message)
  else
    match response.Details with
    | GoValue.null => Except.ok 0
    | GoValue.float64 v => Except.ok v
    | GoValue.int64 v => Except.ok v
    | GoValue.int v => Except.ok v
    | _ => Except.error "unexpected type for lag value"

/-- Field-by-field decoding of a JSON object into `map[string]int64`. -/
def decodeLagFields : List (String × GoValue) → Except String (List (String × Int))
  | [] => Except.ok []
  | (k, v) :: kvs =>
      match decodeIntField (some v) with
      | Except.error e => Except.error e
      | Except.ok n => (decodeLagFields kvs).map (fun rest => (k, n) :: rest)

/-- Envelope handling of `Client.GetHeuristicClusterPoolLag`: the details are
marshalled and unmarshalled directly into `map[string]int64` with no nil
check, so nil details leave the map nil. -/
def GetHeuristicClusterPoolLag (response : APIResponse) :
    Except String (GoMap String Int) :=
  if response.Code ≠ OK then Except.error ("API error: " ++ response.Message)
  else
    match response.Details with
    | GoValue.null => Except.ok none
    | GoValue.obj fields => (decodeLagFields fields).map some
    | _ => Except.error "failed to unmarshal lag map"

/-- Envelope handling of the integer-code client's `Health`: the error prefix
of this method is "health check failed: ", not "API error: ". -/
def Health (response : APIResponse) : Except String Unit :=
  if response.Code ≠ OK then
    Except.error ("health check failed: " ++ response.Message)
  else Except.ok ()

/-- Envelope handling of the integer-code client's `LBCheck`, with its own
fixed error prefix. -/
def LBCheck (response : APIResponse) : Except String Unit :=
  if response.Code ≠ OK then
    Except.error ("LB check failed: " ++ response.Message)
  else Except.ok ()

/-- Envelope handling of the integer-code client's `Ping`, with its own fixed
error prefix. -/
def Ping (response : APIResponse) : Except String Unit :=
  if response.Code ≠ OK then
    Except.error ("ping failed: " ++ response.Message)
  else Except.ok ()

/-- Envelope handling of the integer-code client's `LeaderCheck`, with its
own fixed error prefix. -/
def LeaderCheck (response : APIResponse) : Except String Unit :=
  if response.Code ≠ OK then
    Except.error ("leader check failed: " ++ response.Message)
  else Except.ok ()

/-- Envelope handling of the integer-code client's `LeaderCheckWithErrorCode`
(the status-code argument only shapes the request path, which is built
independently of the envelope handling modelled here). -/
def LeaderCheckWithErrorCode (response : APIResponse) : Except String Unit :=
  if response.Code ≠ OK then
    Except.error ("leader check failed: " ++ response.Message)
  else Except.ok ()

/-! ## String-code client -/

/-- The string-code client's envelope, whose `Code` is a JSON string. -/
structure SAPIResponse where
  Code : String
  Message : String
  Details : GoValue
deriving Repr, Inhabited

/-- Models `parseAPIResponse(resp, result)` of the string-code client for a
nil `result`: only the `Code == "ERROR"` comparison is performed, and any
other code value is accepted without error. -/
def parseAPIResponseUnit (resp : SAPIResponse) : Except String SAPIResponse :=
  if resp.Code == "ERROR" then Except.error ("API error: " ++ resp.Message)
  else Except.ok resp

/-- Models `parseAPIResponse(resp, result)` of the string-code client for a
non-nil `result`: `zero` is the value the target variable holds before the
call (its Go zero value).  When `Details` is nil the decode step is skipped
entirely and the target keeps `zero`. -/
def parseAPIResponseInto {α : Type} (resp : SAPIResponse) (zero : α)
    (decode : GoValue → Except String α) : Except String (SAPIResponse × α) :=
  if resp.Code == "ERROR" then Except.error ("API error: " ++ resp.Message)
  else
    match resp.Details with
    | GoValue.null => Except.ok (resp, zero)
    | d =>
        match decode d with
        | Except.ok v => Except.ok (resp, v)
        | Except.error e => Except.error ("failed to unmarshal details: " ++ e)

/-- Envelope handling of the string-code client's `BeginMaintenance` (and the
other action methods that pass a nil result to `parseAPIResponse`). -/
def BeginMaintenanceS (resp : SAPIResponse) : Except String Unit :=
  (parseAPIResponseUnit resp).map (fun _ => ())

/-- Envelope handling of the string-code client's `RemoveTagFromAll`: a
`[]inst.Instance` variable starting at its nil zero value is passed to
`parseAPIResponse`. -/
def RemoveTagFromAll (resp : SAPIResponse) : Except String (GoSlice Instance) :=
  (parseAPIResponseInto resp none unmarshalInstanceSlice).map Prod.snd

/-! ## Leader resolution (string-code client construction) -/

/-- Go `normalizeURL`: strips one trailing slash and appends `"/api"` unless
the URL already ends with it. -/
def normalizeURL (baseURL : String) : String :=
  let b := goTrimSuffix baseURL "/"
  if goHasSuffix b "/api" then b else b ++ "/api"

/-- Go `normalizeEndpoints`: normalizes every endpoint in order. -/
def normalizeEndpoints (endpoints : List String) : List String :=
  endpoints.map normalizeURL

/-- Go `detectLeader`, with the two HTTP probes (`isLeader` and
`hasRoutedLeader`, each a boolean HTTP check against one endpoint) abstracted
as oracle functions: a first in-order pass looks for a direct leader, a second
in-order pass looks for an endpoint that can route to the leader, and if both
passes fail the resolution errors out. -/
def detectLeader (isLeader hasRoutedLeader : String → Bool)
    (endpoints : List String) : Except String String :=
  match endpoints.find? isLeader with
  | some endpoint => Except.ok endpoint
  | none =>
      match endpoints.find? hasRoutedLeader with
      | some endpoint => Except.ok endpoint
      | none => Except.error "no leader found among endpoints"

/-- The leader value pinned by `NewClient` of the string-code client: with
more than one normalized endpoint the leader is detected by probing (and a
detection failure aborts construction); with exactly one endpoint that
endpoint is pinned; with none the normalized base URL is pinned. -/
def newClientLeader (isLeader hasRoutedLeader : String → Bool)
    (baseURL : String) (endpoints : List String) : Except String String :=
  let eps := normalizeEndpoints endpoints
  if 1 < eps.length then
    (detectLeader isLeader hasRoutedLeader eps).mapError
      (fun e => "failed to detect leader: " ++ e)
  else if eps.length = 1 then Except.ok (eps.headD "")
  else Except.ok (normalizeURL baseURL)

/-! ## Path building and percent-encoding -/

/-- Characters Go `url.QueryEscape` leaves unchanged: ASCII letters, digits,
and the four unreserved marks. -/
def isUnreservedQueryChar (c : Char) : Bool :=
  ('A' ≤ c && c ≤ 'Z') || ('a' ≤ c && c ≤ 'z') || ('0' ≤ c && c ≤ '9') ||
  c == '-' || c == '_' || c == '.' || c == '~'

/-- Uppercase hexadecimal digit for `n < 16`. -/
def hexDigitUpper (n : Nat) : Char :=
  if n < 10 then Char.ofNat (48 + n) else Char.ofNat (55 + n)

/-- Percent-encoding of one byte (`b < 256`). -/
def percentByte (b : Nat) : List Char :=
  ['%', hexDigitUpper (b / 16 % 16), hexDigitUpper (b % 16)]

/-- UTF-8 byte sequence of a character; escaping operates on bytes in Go. -/
def utf8Bytes (c : Char) : List Nat :=
  let n := c.toNat
  if n < 0x80 then [n]
  else if n < 0x800 then [0xC0 + n / 64, 0x80 + n % 64]
  else if n < 0x10000 then
    [0xE0 + n / 4096, 0x80 + n / 64 % 64, 0x80 + n % 64]
  else
    [0xF0 + n / 262144, 0x80 + n / 4096 % 64, 0x80 + n / 64 % 64, 0x80 + n % 64]

/-- Escaping of a single character under Go `url.QueryEscape`: a space
becomes `+`, unreserved characters pass through, and every other character is
percent-encoded byte by byte. -/
def queryEscapeChar (c : Char) : List Char :=
  if c == ' ' then ['+']
  else if isUnreservedQueryChar c then [c]
  else ((utf8Bytes c).map percentByte).flatten

/-- Go `url.QueryEscape`. -/
def queryEscape (s : String) : String :=
  String.mk ((s.data.map queryEscapeChar).flatten)

/-- Path built by the integer-code client's `SearchInstances`: the search
string is interpolated verbatim via `fmt.Sprintf`, with no escaping. -/
def SearchInstancesPath (searchString : String) : String :=
  "/api/search/" ++ searchString

/-- Path built by the string-code client's `Search`: the search string is
escaped with `url.QueryEscape`. -/
def SearchPath (searchString : String) : String :=
  "/search/" ++ queryEscape searchString

/-- Path built by the string-code client's `BeginDowntime`: owner and reason
are escaped with `url.QueryEscape`; a positive duration appends an extra
`/Ns` segment. -/
def BeginDowntimePath (hostname : String) (port : Int) (owner reason : String)
    (durationSecs : Option Int) : String :=
  let durationStr :=
    match durationSecs with
    | some d => "/" ++ String.mk (intDecimal d) ++ "s"
    | none => ""
  "/begin-downtime/" ++ hostname ++ "/" ++ String.mk (intDecimal port) ++ "/" ++
    queryEscape owner ++ "/" ++ queryEscape reason ++ durationStr

/-! ## Supporting lemmas: suffixes -/

lemma isPrefixOf_append_self (l r : List Char) : l.isPrefixOf (l ++ r) = true := by
  induction l with
  | nil => simp [List.isPrefixOf]
  | cons c cs ih => simp [List.isPrefixOf, ih]

lemma goHasSuffix_append (b t : String) : goHasSuffix (b ++ t) t = true := by
  unfold goHasSuffix
  rw [String.data_append, List.reverse_append]
  exact isPrefixOf_append_self _ _

lemma exists_rev_of_hasSuffix_api {s : String} (h : goHasSuffix s "/api" = true) :
    ∃ rest, s.data.reverse = 'i' :: 'p' :: 'a' :: '/' :: rest := by
  unfold goHasSuffix at h
  obtain ⟨t, ht⟩ := List.isPrefixOf_iff_prefix.mp h
  refine ⟨t, ?_⟩
  rw [← ht]
  rfl

lemma hasSuffix_slash_eq_false {s : String} (h : goHasSuffix s "/api" = true) :
    goHasSuffix s "/" = false := by
  obtain ⟨rest, hrev⟩ := exists_rev_of_hasSuffix_api h
  unfold goHasSuffix
  rw [show ("/" : String).data.reverse = ['/'] from rfl, hrev]
  rfl

/-- C8: Endpoint URL normalization strips any trailing slash and appends the
API-path suffix "/api" exactly once: for every input URL the normalized
result ends with "/api", and normalizing an already-normalized URL leaves it
unchanged (the normalization function is idempotent). -/
theorem normalizeURL_api_suffix_idempotent (u : String) :
    goHasSuffix (normalizeURL u) "/api" = true ∧
    normalizeURL (normalizeURL u) = normalizeURL u := by
  have part1 : ∀ v : String, goHasSuffix (normalizeURL v) "/api" = true := by
    intro v
    unfold normalizeURL
    by_cases h : goHasSuffix (goTrimSuffix v "/") "/api" = true
    · simp [h]
    · simp only [Bool.not_eq_true] at h
      simp only [h, if_false]
      exact goHasSuffix_append _ _
  refine ⟨part1 u, ?_⟩
  set n := normalizeURL u with hn
  have h1 : goHasSuffix n "/api" = true := part1 u
  have h2 : goHasSuffix n "/" = false := hasSuffix_slash_eq_false h1
  have htrim : goTrimSuffix n "/" = n := by
    unfold goTrimSuffix
    simp [h2]
  unfold normalizeURL
  rw [htrim]
  simp [h1]

/-! ## Supporting lemmas: first-match search -/

lemma find?_append_cons {p : String → Bool} (pre : List String) (e : String)
    (post : List String) (hpre : ∀ x ∈ pre, p x = false) (he : p e = true) :
    (pre ++ e :: post).find? p = some e := by
  induction pre with
  | nil => simp [List.find?_cons, he]
  | cons a as ih =>
      have ha : p a = false := hpre a (by simp)
      rw [List.cons_append, List.find?_cons_of_neg _ (by simp [ha])]
      exact ih (fun x hx => hpre x (by simp [hx]))

/-- C4: For every list of two or more candidate endpoints, leader resolution
probes each endpoint in input order with a direct leader check and pins the
first endpoint that answers affirmatively; if none answer affirmatively it
makes a second in-order pass using the routed-leader check; and if neither
pass finds a qualifying endpoint, resolution fails with a "no leader found"
error rather than pinning any endpoint.  With exactly one endpoint that
endpoint is pinned without probing (the oracles are arbitrary and unused),
and with zero endpoints the configured (normalized) base URL is pinned. -/
theorem newClientLeader_spec (isLeader hasRoutedLeader : String → Bool)
    (baseURL : String) (endpoints : List String) :
    (∀ pre e post, 2 ≤ endpoints.length →
      normalizeEndpoints endpoints = pre ++ e :: post →
      (∀ x ∈ pre, isLeader x = false) → isLeader e = true →
      newClientLeader isLeader hasRoutedLeader baseURL endpoints = Except.ok e) ∧
    (∀ pre e post, 2 ≤ endpoints.length →
      (∀ x ∈ normalizeEndpoints endpoints, isLeader x = false) →
      normalizeEndpoints endpoints = pre ++ e :: post →
      (∀ x ∈ pre, hasRoutedLeader x = false) → hasRoutedLeader e = true →
      newClientLeader isLeader hasRoutedLeader baseURL endpoints = Except.ok e) ∧
    (2 ≤ endpoints.length →
      (∀ x ∈ normalizeEndpoints endpoints,
        isLeader x = false ∧ hasRoutedLeader x = false) →
      newClientLeader isLeader hasRoutedLeader baseURL endpoints =
        Except.error "failed to detect leader: no leader found among endpoints") ∧
    (∀ e, endpoints = [e] →
      newClientLeader isLeader hasRoutedLeader baseURL endpoints =
        Except.ok (normalizeURL e)) ∧
    (endpoints = [] →
      newClientLeader isLeader hasRoutedLeader baseURL endpoints =
        Except.ok (normalizeURL baseURL)) := by
  have hlen : (normalizeEndpoints endpoints).length = endpoints.length := by
    simp [normalizeEndpoints]
  refine ⟨?_, ?_, ?_, ?_, ?_⟩
  · intro pre e post h2 hsplit hpre he
    unfold newClientLeader
    rw [if_pos (by omega : 1 < (normalizeEndpoints endpoints).length)]
    unfold detectLeader
    rw [hsplit, find?_append_cons pre e post hpre he]
    rfl
  · intro pre e post h2 hnone hsplit hpre he
    unfold newClientLeader
    rw [if_pos (by omega : 1 < (normalizeEndpoints endpoints).length)]
    unfold detectLeader
    rw [List.find?_eq_none.mpr (by simpa using hnone), hsplit,
      find?_append_cons pre e post hpre he]
    rfl
  · intro h2 hnone
    unfold newClientLeader
    rw [if_pos (by omega : 1 < (normalizeEndpoints endpoints).length)]
    unfold detectLeader
    rw [List.find?_eq_none.mpr (by simpa using fun x hx => (hnone x hx).1),
      List.find?_eq_none.mpr (by simpa using fun x hx => (hnone x hx).2)]
    rfl
  · intro e he
    subst he
    rfl
  · intro he
    subst he
    rfl

/-- Witness for C4: with endpoints ["http://a", "http://b"] where only the
second answers the direct leader probe affirmatively, the second (normalized)
endpoint is pinned. -/
theorem newClientLeader_spec_witness :
    newClientLeader (fun s => s == "http://b/api") (fun _ => false)
      "http://base" ["http://a", "http://b"] = Except.ok "http://b/api" := by
  refine (newClientLeader_spec (fun s => s == "http://b/api") (fun _ => false)
      "http://base" ["http://a", "http://b"]).1 ["http://a/api"] "http://b/api" []
    (by decide) (by rfl) ?_ (by rfl)
  intro x hx
  simp at hx
  rw [hx]
  rfl

/-! ## Envelope handling: claims about codes, details and conversions -/

lemma decodeStringList_strings (ss : List String) :
    decodeStringList (ss.map GoValue.str) = Except.ok ss := by
  induction ss with
  | nil => rfl
  | cons a as ih => simp [decodeStringList, ih, Except.map]

lemma convertToStringSlice_strings (ss : List String) :
    convertToStringSlice (GoValue.arr (ss.map GoValue.str)) = Except.ok (some ss) := by
  simp [convertToStringSlice, decodeStringList_strings, Except.map]

/-- C9: In the integer-code client, the zero value of the response-code type
is the error discriminant, so an envelope whose JSON omits the Code field
decodes to ERROR and the operation method returns an error for it; an
operation can return success only when the envelope explicitly carries the
success code. -/
theorem code_zero_value_is_error (fields : List (String × GoValue)) (r : APIResponse) :
    ERROR = (0 : Int) ∧
    (decodeAPIResponse (GoValue.obj fields) = Except.ok r →
      lookupField fields "Code" = none → r.Code = ERROR) ∧
    (r.Code = ERROR → ∃ e, GetInstance r = Except.error e) ∧
    (∀ i, GetInstance r = Except.ok i → r.Code = OK) := by
  refine ⟨rfl, ?_, ?_, ?_⟩
  · intro hdec hlook
    simp only [decodeAPIResponse] at hdec
    rw [hlook] at hdec
    cases hmsg : decodeStringField (lookupField fields "Message") with
    | error e =>
        rw [hmsg] at hdec
        exact absurd hdec (by simp [decodeIntField])
    | ok m =>
        rw [hmsg] at hdec
        simp only [decodeIntField, Except.ok.injEq] at hdec
        rw [← hdec]
        rfl
  · intro hc
    refine ⟨"API error: " ++ r.Message, ?_⟩
    unfold GetInstance
    rw [if_pos (by rw [hc]; decide)]
  · intro i hok
    by_contra hc
    unfold GetInstance at hok
    rw [if_pos hc] at hok
    exact Except.noConfusion hok

/-- Witness for C9: an envelope whose JSON object carries only a Message
decodes with Code = ERROR, and GetInstance rejects it. -/
theorem code_zero_value_is_error_witness :
    (⟨ERROR, "m", GoValue.null⟩ : APIResponse).Code = ERROR ∧
    (∃ e, GetInstance ⟨ERROR, "m", GoValue.null⟩ = Except.error e) :=
  ⟨rfl, (code_zero_value_is_error [] ⟨ERROR, "m", GoValue.null⟩).2.2.1 rfl⟩

/-- C7: For every successful envelope carrying a numeric lag value in
Details, the lag accessor normalizes the value by explicit per-case
conversion over the possible arrival types (float64, int64, int) and returns
the corresponding 64-bit integer; for a Details value of any other non-nil
type it returns an error, and for nil Details it returns zero. -/
theorem lag_numeric_normalization (r : APIResponse) (hc : r.Code = OK) :
    (r.Details = GoValue.null → GetHeuristicClusterPoolLagForPool r = Except.ok 0) ∧
    (∀ v, r.Details = GoValue.float64 v →
      GetHeuristicClusterPoolLagForPool r = Except.ok v) ∧
    (∀ v, r.Details = GoValue.int64 v →
      GetHeuristicClusterPoolLagForPool r = Except.ok v) ∧
    (∀ v, r.Details = GoValue.int v →
      GetHeuristicClusterPoolLagForPool r = Except.ok v) ∧
    (∀ s, r.Details = GoValue.str s →
      ∃ e, GetHeuristicClusterPoolLagForPool r = Except.error e) ∧
    (∀ b, r.Details = GoValue.bool b →
      ∃ e, GetHeuristicClusterPoolLagForPool r = Except.error e) ∧
    (∀ xs, r.Details = GoValue.arr xs →
      ∃ e, GetHeuristicClusterPoolLagForPool r = Except.error e) ∧
    (∀ fs, r.Details = GoValue.obj fs →
      ∃ e, GetHeuristicClusterPoolLagForPool r = Except.error e) := by
  unfold GetHeuristicClusterPoolLagForPool
  rw [hc]
  refine ⟨fun hd => by rw [hd]; rfl, fun v hd => by rw [hd]; rfl,
    fun v hd => by rw [hd]; rfl, fun v hd => by rw [hd]; rfl,
    fun s hd => ⟨"unexpected type for lag value", by rw [hd]; rfl⟩,
    fun b hd => ⟨"unexpected type for lag value", by rw [hd]; rfl⟩,
    fun xs hd => ⟨"unexpected type for lag value", by rw [hd]; rfl⟩,
    fun fs hd => ⟨"unexpected type for lag value", by rw [hd]; rfl⟩⟩

/-- Witness for C7: a float64-flavored lag of 42 on a success envelope is
returned as the integer 42. -/
theorem lag_numeric_normalization_witness :
    GetHeuristicClusterPoolLagForPool ⟨OK, "", GoValue.float64 42⟩ = Except.ok 42 :=
  (lag_numeric_normalization ⟨OK, "", GoValue.float64 42⟩ rfl).2.1 42 rfl

/-- C5 counterexample: on a successful envelope whose Details is the JSON
string "true" (an unknown representation for a boolean flag), the
boolean-flag accessor InMaintenance returns an error by way of convertToBool
instead of falling back to stringification, contradicting the claim that
every special-cased scalar accessor stringifies unknown representations. -/
theorem inMaintenance_string_details_errors :
    InMaintenance ⟨OK, "ok", GoValue.str "true"⟩ =
      Except.error "data is not a bool" := rfl

/-- C5 amended: the single-string accessor (GetRaftLeader) type-switches on
the decoded Details value and stringifies unknown representations rather than
failing, but the boolean-flag accessor (convertToBool, used by
InMaintenance) accepts only a boolean and returns an error for every other
non-nil representation. -/
theorem scalar_accessor_leniency (r : APIResponse) (hc : r.Code = OK) :
    (∀ s, r.Details = GoValue.str s → GetRaftLeader r = Except.ok s) ∧
    (r.Details = GoValue.null → GetRaftLeader r = Except.ok "") ∧
    (r.Details ≠ GoValue.null → (∀ s, r.Details ≠ GoValue.str s) →
      GetRaftLeader r = Except.ok (goSprint r.Details)) ∧
    (∀ b, convertToBool (GoValue.bool b) = Except.ok b) ∧
    (convertToBool GoValue.null = Except.error "nil data") ∧
    (∀ d, d ≠ GoValue.null → (∀ b, d ≠ GoValue.bool b) →
      convertToBool d = Except.error "data is not a bool") := by
  unfold GetRaftLeader
  rw [hc]
  refine ⟨fun s hd => by rw [hd]; rfl, fun hd => by rw [hd]; rfl, ?_,
    fun b => rfl, rfl, ?_⟩
  · intro hnull hstr
    cases hd : r.Details with
    | null => exact absurd hd hnull
    | str s => exact absurd hd (hstr s)
    | bool b => rfl
    | float64 v => rfl
    | int64 v => rfl
    | int v => rfl
    | arr xs => rfl
    | obj fs => rfl
  · intro d hnull hbool
    cases d with
    | null => exact absurd rfl hnull
    | bool b => exact absurd rfl (hbool b)
    | float64 v => rfl
    | int64 v => rfl
    | int v => rfl
    | str s => rfl
    | arr xs => rfl
    | obj fs => rfl

/-- Witness for C5 amended: a boolean-flavored Details under the string
accessor is stringified to "true" rather than rejected. -/
theorem scalar_accessor_leniency_witness :
    GetRaftLeader ⟨OK, "", GoValue.bool true⟩ = Except.ok "true" := by
  have h := (scalar_accessor_leniency ⟨OK, "", GoValue.bool true⟩ rfl).2.2.1
    (by intro h; exact GoValue.noConfusion h)
    (by intro s h; exact GoValue.noConfusion h)
  rw [h]
  simp [goSprint]

/-- C10: For every successful envelope listing pool members as strings,
GetClusterPoolInstancesForPool and GetHeuristicClusterPoolInstancesForPool
return exactly the entries that parse as valid hostname:port instance keys,
in input order; entries that fail to parse are silently skipped and never
cause the call to return an error. -/
theorem poolInstances_skip_unparseable (r : APIResponse) (ss : List String)
    (hc : r.Code = OK) (hd : r.Details = GoValue.arr (ss.map GoValue.str)) :
    GetClusterPoolInstancesForPool r =
      Except.ok (ss.filterMap (fun s => (ParseInstanceKey s).toOption)) ∧
    GetHeuristicClusterPoolInstancesForPool r =
      Except.ok (ss.filterMap (fun s => (ParseInstanceKey s).toOption)) := by
  unfold GetClusterPoolInstancesForPool GetHeuristicClusterPoolInstancesForPool
  rw [hc, hd, convertToStringSlice_strings]
  exact ⟨rfl, rfl⟩

/-- Witness for C10: of the entries ["db1:3306", "nocolon", "a:b:c",
"db2:14x"], the unparseable "nocolon" and "a:b:c" are skipped, "db1:3306"
parses exactly, and "db2:14x" parses leniently to port 14; no error occurs. -/
theorem poolInstances_skip_unparseable_witness :
    GetClusterPoolInstancesForPool
      ⟨OK, "", GoValue.arr (["db1:3306", "nocolon", "a:b:c", "db2:14x"].map GoValue.str)⟩ =
      Except.ok [⟨"db1", 3306⟩, ⟨"db2", 14⟩] :=
  Eq.trans
    ((poolInstances_skip_unparseable
      ⟨OK, "", GoValue.arr (["db1:3306", "nocolon", "a:b:c", "db2:14x"].map GoValue.str)⟩
      ["db1:3306", "nocolon", "a:b:c", "db2:14x"] rfl rfl).1)
    (by rfl)

/-- C1 counterexample: in the string-code client an envelope whose Code
"FOO" is not the success discriminant "OK" is nevertheless accepted without
error by parseAPIResponse (which only tests Code against the literal
"ERROR"), so an operation method such as BeginMaintenance returns success
and the message is dropped, contradicting the claim that every non-success
code produces an "API error: " + Message error. -/
theorem parseAPIResponse_nonsuccess_accepted :
    parseAPIResponseUnit ⟨"FOO", "bad things happened", GoValue.null⟩ =
      Except.ok ⟨"FOO", "bad things happened", GoValue.null⟩ ∧
    ("FOO" : String) ≠ "OK" ∧
    BeginMaintenanceS ⟨"FOO", "bad things happened", GoValue.null⟩ =
      Except.ok () :=
  ⟨rfl, by decide, rfl⟩

/-- C1 amended: in the integer-code client every operation method returns,
for any envelope whose Code is not OK, an error carrying the envelope's
Message verbatim behind a fixed prefix — most methods use the prefix
"API error: ", while the health-family methods (Health, LBCheck, Ping,
LeaderCheck, LeaderCheckWithErrorCode) each use their own fixed prefix
("health check failed: ", "LB check failed: ", "ping failed: ",
"leader check failed: "); in the string-code client parseAPIResponse
produces the error "API error: " + Message exactly when Code equals the
literal "ERROR", and accepts any other code (success or not) without
error. -/
theorem api_error_prefix (r : APIResponse) (sr : SAPIResponse)
    (hc : r.Code ≠ OK) :
    GetInstance r = Except.error ("API error: " ++ r.Message) ∧
    GetInstanceReplicas r = Except.error ("API error: " ++ r.Message) ∧
    InMaintenance r = Except.error ("API error: " ++ r.Message) ∧
    GetRaftLeader r = Except.error ("API error: " ++ r.Message) ∧
    GetClusterPoolInstancesForPool r = Except.error ("API error: " ++ r.Message) ∧
    GetHeuristicClusterPoolInstancesForPool r =
      Except.error ("API error: " ++ r.Message) ∧
    GetHeuristicClusterPoolLagForPool r =
      Except.error ("API error: " ++ r.Message) ∧
    GetHeuristicClusterPoolLag r = Except.error ("API error: " ++ r.Message) ∧
    Health r = Except.error ("health check failed: " ++ r.Message) ∧
    LBCheck r = Except.error ("LB check failed: " ++ r.Message) ∧
    Ping r = Except.error ("ping failed: " ++ r.Message) ∧
    LeaderCheck r = Except.error ("leader check failed: " ++ r.Message) ∧
    LeaderCheckWithErrorCode r =
      Except.error ("leader check failed: " ++ r.Message) ∧
    (sr.Code = "ERROR" →
      parseAPIResponseUnit sr = Except.error ("API error: " ++ sr.Message)) ∧
    (sr.Code ≠ "ERROR" → parseAPIResponseUnit sr = Except.ok sr) := by
  refine ⟨?_, ?_, ?_, ?_, ?_, ?_, ?_, ?_, ?_, ?_, ?_, ?_, ?_, ?_, ?_⟩
  · unfold GetInstance; rw [if_pos hc]
  · unfold GetInstanceReplicas; rw [if_pos hc]
  · unfold InMaintenance; rw [if_pos hc]
  · unfold GetRaftLeader; rw [if_pos hc]
  · unfold GetClusterPoolInstancesForPool; rw [if_pos hc]
  · unfold GetHeuristicClusterPoolInstancesForPool; rw [if_pos hc]
  · unfold GetHeuristicClusterPoolLagForPool; rw [if_pos hc]
  · unfold GetHeuristicClusterPoolLag; rw [if_pos hc]
  · unfold Health; rw [if_pos hc]
  · unfold LBCheck; rw [if_pos hc]
  · unfold Ping; rw [if_pos hc]
  · unfold LeaderCheck; rw [if_pos hc]
  · unfold LeaderCheckWithErrorCode; rw [if_pos hc]
  · intro hsc
    unfold parseAPIResponseUnit
    rw [if_pos (by rw [hsc]; rfl)]
  · intro hsc
    unfold parseAPIResponseUnit
    rw [if_neg (by simpa using hsc)]

/-- Witness for C1 amended: an ERROR envelope with message "boom" yields the
error text "API error: boom" from GetInstance and from the string-code
parseAPIResponse, but "health check failed: boom" from Health — a fixed
prefix that is not "API error: ". -/
theorem api_error_prefix_witness :
    GetInstance ⟨ERROR, "boom", GoValue.null⟩ =
      Except.error "API error: boom" ∧
    Health ⟨ERROR, "boom", GoValue.null⟩ =
      Except.error "health check failed: boom" ∧
    parseAPIResponseUnit ⟨"ERROR", "boom", GoValue.null⟩ =
      Except.error "API error: boom" := by
  have h := api_error_prefix ⟨ERROR, "boom", GoValue.null⟩
    ⟨"ERROR", "boom", GoValue.null⟩ (by decide)
  exact ⟨h.1, h.2.2.2.2.2.2.2.2.1,
    h.2.2.2.2.2.2.2.2.2.2.2.2.2.1 rfl⟩

/-- C2 counterexample: the string-code client's RemoveTagFromAll, given a
successful envelope with null Details, returns the nil slice (the Go zero
value of the target variable), and the nil slice is not the empty
slice — contradicting the claim that every collection-returning operation
yields an empty, never-nil collection for null Details. -/
theorem removeTagFromAll_nil_slice :
    RemoveTagFromAll ⟨"OK", "", GoValue.null⟩ =
      Except.ok (none : GoSlice Instance) ∧
    (none : GoSlice Instance) ≠ some ([] : List Instance) :=
  ⟨rfl, fun h => Option.noConfusion h⟩

/-- C2 amended: the integer-code client's conversion helpers
(convertTo*Slice, convertToPoolInstancesMap) turn null Details into an empty
non-nil collection, and so do the operations routed through them; but
operations that unmarshal Details directly — the integer-code map-returning
GetHeuristicClusterPoolLag and every string-code operation going through
parseAPIResponse — leave the collection at its nil zero value instead. -/
theorem nil_details_collections (r : APIResponse) (hc : r.Code = OK)
    (hd : r.Details = GoValue.null) :
    convertToInstanceSlice GoValue.null = Except.ok (some []) ∧
    convertToStringSlice GoValue.null = Except.ok (some []) ∧
    convertToPoolInstancesMap GoValue.null = Except.ok (some []) ∧
    GetInstanceReplicas r = Except.ok (some []) ∧
    GetClusterPoolInstancesForPool r = Except.ok [] ∧
    GetHeuristicClusterPoolLag r = Except.ok none ∧
    (∀ (α : Type) (sr : SAPIResponse) (zero : α)
        (dec : GoValue → Except String α),
      sr.Code ≠ "ERROR" → sr.Details = GoValue.null →
      parseAPIResponseInto sr zero dec = Except.ok (sr, zero)) ∧
    (∀ sr : SAPIResponse, sr.Code ≠ "ERROR" → sr.Details = GoValue.null →
      RemoveTagFromAll sr = Except.ok none) := by
  have hinto : ∀ (α : Type) (sr : SAPIResponse) (zero : α)
      (dec : GoValue → Except String α),
      sr.Code ≠ "ERROR" → sr.Details = GoValue.null →
      parseAPIResponseInto sr zero dec = Except.ok (sr, zero) := by
    intro α sr zero dec hsc hdet
    unfold parseAPIResponseInto
    rw [if_neg (by simpa using hsc), hdet]
  refine ⟨rfl, rfl, rfl, ?_, ?_, ?_, hinto, ?_⟩
  · unfold GetInstanceReplicas
    rw [if_neg (by simp [hc]), hd]
    rfl
  · unfold GetClusterPoolInstancesForPool
    rw [if_neg (by simp [hc]), hd]
    rfl
  · unfold GetHeuristicClusterPoolLag
    rw [if_neg (by simp [hc]), hd]
  · intro sr hsc hdet
    unfold RemoveTagFromAll
    rw [hinto (GoSlice Instance) sr none unmarshalInstanceSlice hsc hdet]
    rfl

/-- Witness for C2 amended: on a success envelope with null Details the
integer-code GetInstanceReplicas yields the empty slice while the
string-code RemoveTagFromAll yields the nil slice. -/
theorem nil_details_collections_witness :
    GetInstanceReplicas ⟨OK, "", GoValue.null⟩ = Except.ok (some []) ∧
    RemoveTagFromAll ⟨"GOOD", "", GoValue.null⟩ = Except.ok none := by
  have h := nil_details_collections ⟨OK, "", GoValue.null⟩ rfl rfl
  exact ⟨h.2.2.2.1, h.2.2.2.2.2.2.2 ⟨"GOOD", "", GoValue.null⟩ (by decide) rfl⟩

/-! ## Supporting lemmas: splitting, scanning and decimal formatting -/

lemma splitCharsAux_no_sep (sep : Char) (l : List Char) (hl : sep ∉ l) :
    ∀ acc, splitCharsAux sep l acc = [acc.reverse ++ l] := by
  induction l with
  | nil => intro acc; simp [splitCharsAux]
  | cons c cs ih =>
      intro acc
      have hc : ¬(c = sep) := fun h => hl (by simp [h])
      have hcs : sep ∉ cs := fun h => hl (by simp [h])
      rw [splitCharsAux, if_neg hc, ih hcs]
      simp

lemma splitCharsAux_sep_append (sep : Char) (l : List Char) (hl : sep ∉ l)
    (r : List Char) :
    ∀ acc, splitCharsAux sep (l ++ sep :: r) acc =
      (acc.reverse ++ l) :: splitCharsAux sep r [] := by
  induction l with
  | nil => intro acc; simp [splitCharsAux]
  | cons c cs ih =>
      intro acc
      have hc : ¬(c = sep) := fun h => hl (by simp [h])
      have hcs : sep ∉ cs := fun h => hl (by simp [h])
      rw [List.cons_append, splitCharsAux, if_neg hc, ih hcs]
      simp

lemma goSplit_two (host portStr : String) (hh : ':' ∉ host.data)
    (hp : ':' ∉ portStr.data) :
    goSplit ':' (host ++ ":" ++ portStr) = [host, portStr] := by
  unfold goSplit
  have hdata : (host ++ ":" ++ portStr).data = host.data ++ ':' :: portStr.data := by
    rw [String.data_append, String.data_append]
    simp
  rw [hdata, splitCharsAux_sep_append ':' host.data hh portStr.data [],
    splitCharsAux_no_sep ':' portStr.data hp []]
  simp

lemma takeWhile_all {p : Char → Bool} (l : List Char)
    (h : ∀ c ∈ l, p c = true) : l.takeWhile p = l := by
  induction l with
  | nil => rfl
  | cons c cs ih =>
      rw [List.takeWhile_cons, if_pos (by rw [h c (by simp)])]
      rw [ih (fun x hx => h x (by simp [hx]))]

lemma isDigit_ne {c x : Char} (h : c.isDigit = true) (hx : x.isDigit = false) :
    c ≠ x := by
  intro he
  rw [he, hx] at h
  exact Bool.noConfusion h

lemma isDigit_not_blank {c : Char} (h : c.isDigit = true) :
    (c == ' ' || c == '\t') = false := by
  cases hsp : (c == ' ') with
  | true =>
      have hc : c = ' ' := eq_of_beq hsp
      subst hc
      exact absurd h (by decide)
  | false =>
      cases htb : (c == '\t') with
      | true =>
          have hc : c = '\t' := eq_of_beq htb
          subst hc
          exact absurd h (by decide)
      | false => simp [hsp, htb]

lemma dropWhile_blank_digits {l : List Char}
    (hd : ∀ c ∈ l, c.isDigit = true) :
    l.dropWhile (fun c => c == ' ' || c == '\t') = l := by
  cases l with
  | nil => rfl
  | cons c cs =>
      rw [List.dropWhile_cons, if_neg]
      rw [isDigit_not_blank (hd c (by simp))]
      exact Bool.false_ne_true

lemma scanSign_digit {c : Char} (t : List Char) (h : c.isDigit = true) :
    scanSign (c :: t) = (false, c :: t) := by
  rw [scanSign, if_neg (isDigit_ne h (by decide)), if_neg (isDigit_ne h (by decide))]

lemma digitChar_toNat {d : Nat} (hd : d < 10) : (digitChar d).toNat = 48 + d := by
  interval_cases d <;> rfl

lemma digitChar_isDigit {d : Nat} (hd : d < 10) : (digitChar d).isDigit = true := by
  interval_cases d <;> rfl

lemma natDecimalAux_append (fuel : Nat) :
    ∀ n acc, natDecimalAux fuel n acc = natDecimalAux fuel n [] ++ acc := by
  induction fuel with
  | zero => intro n acc; simp [natDecimalAux]
  | succ f ih =>
      intro n acc
      by_cases h : n = 0
      · simp [natDecimalAux, h]
      · rw [natDecimalAux, if_neg h, ih (n / 10) (digitChar (n % 10) :: acc),
          natDecimalAux, if_neg h, ih (n / 10) [digitChar (n % 10)]]
        simp

lemma digitsToNat_append_digit (l : List Char) (c : Char) :
    digitsToNat (l ++ [c]) = 10 * digitsToNat l + (c.toNat - 48) := by
  unfold digitsToNat
  rw [List.foldl_append]
  rfl

lemma digitsToNat_natDecimalAux (fuel : Nat) :
    ∀ n, n ≤ fuel → digitsToNat (natDecimalAux fuel n []) = n := by
  induction fuel with
  | zero =>
      intro n hn
      have h : n = 0 := by omega
      simp [natDecimalAux, h, digitsToNat]
  | succ f ih =>
      intro n hn
      by_cases h : n = 0
      · simp [natDecimalAux, h, digitsToNat]
      · rw [natDecimalAux, if_neg h, natDecimalAux_append,
          digitsToNat_append_digit,
          ih (n / 10) (by
            have := Nat.div_lt_self (Nat.pos_of_ne_zero h) (show 1 < 10 by decide)
            omega),
          digitChar_toNat (Nat.mod_lt n (by decide))]
        omega

lemma digitsToNat_natDecimal (n : Nat) : digitsToNat (natDecimal n) = n := by
  unfold natDecimal
  by_cases h : n = 0
  · simp [h, digitsToNat]
  · rw [if_neg h]
    exact digitsToNat_natDecimalAux n n (Nat.le_refl n)

lemma natDecimalAux_digits (fuel : Nat) :
    ∀ n acc, (∀ c ∈ acc, c.isDigit = true) →
      ∀ c ∈ natDecimalAux fuel n acc, c.isDigit = true := by
  induction fuel with
  | zero => intro n acc hacc; simpa [natDecimalAux] using hacc
  | succ f ih =>
      intro n acc hacc
      by_cases h : n = 0
      · simpa [natDecimalAux, h] using hacc
      · rw [natDecimalAux, if_neg h]
        refine ih (n / 10) _ ?_
        intro c hc
        rcases List.mem_cons.mp hc with hc | hc
        · rw [hc]
          exact digitChar_isDigit (Nat.mod_lt n (by decide))
        · exact hacc c hc

lemma natDecimal_digits (n : Nat) : ∀ c ∈ natDecimal n, c.isDigit = true := by
  unfold natDecimal
  by_cases h : n = 0
  · simp [h]
  · rw [if_neg h]
    exact natDecimalAux_digits n n [] (by simp)

lemma natDecimal_ne_nil (n : Nat) : natDecimal n ≠ [] := by
  unfold natDecimal
  by_cases h : n = 0
  · simp [h]
  · rw [if_neg h]
    cases n with
    | zero => exact absurd rfl h
    | succ f =>
        rw [natDecimalAux, if_neg h, natDecimalAux_append]
        simp

lemma intDecimal_digit_or_minus (p : Int) :
    ∀ c ∈ intDecimal p, c.isDigit = true ∨ c = '-' := by
  unfold intDecimal
  by_cases h : p < 0
  · rw [if_pos h]
    intro c hc
    rcases List.mem_cons.mp hc with hc | hc
    · exact Or.inr hc
    · exact Or.inl (natDecimal_digits _ c hc)
  · rw [if_neg h]
    intro c hc
    exact Or.inl (natDecimal_digits _ c hc)

lemma intDecimal_ne {p : Int} {x : Char} (hx : x.isDigit = false)
    (hm : x ≠ '-') : x ∉ intDecimal p := by
  intro hmem
  rcases intDecimal_digit_or_minus p x hmem with h | h
  · rw [h] at hx
    exact Bool.noConfusion hx
  · exact hm h

lemma scanInt_digits (l : List Char) (hne : l ≠ [])
    (hd : ∀ c ∈ l, c.isDigit = true)
    (hhi : (digitsToNat l : Int) < 2 ^ 63) :
    scanInt (String.mk l) = some (digitsToNat l : Int) := by
  cases l with
  | nil => exact absurd rfl hne
  | cons c cs =>
      have hdc : c.isDigit = true := hd c (by simp)
      have hdrop := dropWhile_blank_digits hd
      have hsign := scanSign_digit cs hdc
      have htake := takeWhile_all (c :: cs) hd
      have h0 : (0 : Int) ≤ (digitsToNat (c :: cs) : Int) := Int.ofNat_nonneg _
      have hlo' : -(2 ^ 63 : Int) ≤ (digitsToNat (c :: cs) : Int) :=
        le_trans (neg_nonpos_of_nonneg (by positivity)) h0
      have hp : (2 : Int) ^ 63 = 9223372036854775808 := by norm_num
      rw [hp] at hlo' hhi
      simp [scanInt, show (String.mk (c :: cs)).data = c :: cs from rfl,
        hdrop, hsign, htake, hlo', hhi]

lemma scanInt_neg_digits (l : List Char) (hne : l ≠ [])
    (hd : ∀ c ∈ l, c.isDigit = true)
    (hlo : -(2 ^ 63) ≤ -(digitsToNat l : Int)) :
    scanInt (String.mk ('-' :: l)) = some (-(digitsToNat l : Int)) := by
  have htake := takeWhile_all l hd
  have h0 : (0 : Int) ≤ (digitsToNat l : Int) := Int.ofNat_nonneg _
  have hpow : (0 : Int) < 2 ^ 63 := by positivity
  have hhi' : -(digitsToNat l : Int) < 2 ^ 63 := by omega
  have hempty : l.isEmpty = false := by
    cases hq : l with
    | nil => exact absurd hq hne
    | cons a t => rfl
  have hp : (2 : Int) ^ 63 = 9223372036854775808 := by norm_num
  rw [hp] at hlo hhi'
  simp [scanInt, show (String.mk ('-' :: l)).data = '-' :: l from rfl,
    show ('-' :: l).dropWhile (fun c => c == ' ' || c == '\t') = '-' :: l from rfl,
    show scanSign ('-' :: l) = (true, l) from rfl,
    htake, hempty, hlo, hhi']

lemma scanInt_intDecimal (p : Int) (hlo : -(2 ^ 63) ≤ p) (hhi : p < 2 ^ 63) :
    scanInt (String.mk (intDecimal p)) = some p := by
  unfold intDecimal
  by_cases h : p < 0
  · rw [if_pos h]
    have habs : (p.natAbs : Int) = -p := by omega
    have := scanInt_neg_digits (natDecimal p.natAbs) (natDecimal_ne_nil _)
      (natDecimal_digits _)
      (by rw [digitsToNat_natDecimal, habs]; omega)
    rw [this, digitsToNat_natDecimal, habs]
    congr 1
    omega
  · rw [if_neg h]
    have htn : (p.toNat : Int) = p := by omega
    have := scanInt_digits (natDecimal p.toNat) (natDecimal_ne_nil _)
      (natDecimal_digits _)
      (by rw [digitsToNat_natDecimal, htn]; exact hhi)
    rw [this, digitsToNat_natDecimal, htn]

lemma intDecimal_no_colon (p : Int) : ':' ∉ intDecimal p :=
  intDecimal_ne (by decide) (by decide)

/-- C3 counterexample: "host:12x" is malformed in the claim's sense (its port
segment "12x" is not numeric), yet ParseInstanceKey accepts it, scanning the
leading digits and silently ignoring the trailing "x". -/
theorem parseInstanceKey_trailing_junk :
    ParseInstanceKey "host:12x" = Except.ok ⟨"host", 12⟩ ∧
    ("12x".data.all Char.isDigit) = false :=
  ⟨rfl, rfl⟩

/-- C3 amended: parse-then-format round-trips for every string
host ++ ":" ++ d where the host contains no colon and d is the canonical
decimal form of a 64-bit integer; parsing fails whenever the string does not
split into exactly two colon-separated parts, and whenever the port segment
is rejected by the %d scan (no leading digit run, or 64-bit overflow) — but a
port segment that merely carries trailing non-numeric characters after its
digits is accepted with those characters ignored, so such inputs do not
round-trip. -/
theorem parseInstanceKey_roundtrip (host : String) (p : Int) (s : String)
    (hh : ':' ∉ host.data) (hlo : -(2 ^ 63) ≤ p) (hhi : p < 2 ^ 63) :
    ParseInstanceKey (InstanceKey.toString ⟨host, p⟩) = Except.ok ⟨host, p⟩ ∧
    InstanceKey.toString ⟨host, p⟩ = host ++ ":" ++ String.mk (intDecimal p) ∧
    ((goSplit ':' s).length ≠ 2 →
      ParseInstanceKey s = Except.error ("invalid instance key format: " ++ s)) ∧
    (∀ portStr : String, ':' ∉ portStr.data → scanInt portStr = none →
      ParseInstanceKey (host ++ ":" ++ portStr) =
        Except.error ("invalid port in instance key: " ++ portStr)) := by
  refine ⟨?_, rfl, ?_, ?_⟩
  · simp only [ParseInstanceKey, InstanceKey.toString,
      goSplit_two host (String.mk (intDecimal p)) hh (intDecimal_no_colon p),
      scanInt_intDecimal p hlo hhi]
  · intro hlen
    unfold ParseInstanceKey
    rcases hgs : goSplit ':' s with _ | ⟨a, _ | ⟨b, _ | ⟨c, rest⟩⟩⟩
    · rfl
    · rfl
    · rw [hgs] at hlen
      exact absurd rfl hlen
    · rfl
  · intro portStr hps hscan
    simp only [ParseInstanceKey, goSplit_two host portStr hh hps, hscan]

/-- Witness for C3 amended: "db1.example.com:3306" parses to the expected key
and formats back to the identical string; ":" (empty host and port) has a
port segment with no digits and is rejected; "a:b:c" splits into three parts
and is rejected. -/
theorem parseInstanceKey_roundtrip_witness :
    ParseInstanceKey (InstanceKey.toString ⟨"db1.example.com", 3306⟩) =
      Except.ok ⟨"db1.example.com", 3306⟩ ∧
    InstanceKey.toString ⟨"db1.example.com", 3306⟩ = "db1.example.com:3306" ∧
    ParseInstanceKey "a:b:c" = Except.error "invalid instance key format: a:b:c" ∧
    ParseInstanceKey "db1.example.com:" =
      Except.error "invalid port in instance key: " := by
  have h := parseInstanceKey_roundtrip "db1.example.com" 3306 "a:b:c"
    (by decide) (by decide) (by decide)
  refine ⟨h.1, by rfl, h.2.2.1 (by decide), ?_⟩
  have h4 := h.2.2.2 "" (by decide) (by rfl)
  exact h4

/-! ## Supporting lemmas: percent-encoding and path shape -/

lemma stringDataExt {a b : String} (h : a.data = b.data) : a = b := by
  cases a
  cases b
  exact congrArg String.mk h

lemma hexDigitUpper_ne_slash {m : Nat} (h : m < 16) : hexDigitUpper m ≠ '/' := by
  interval_cases m <;> decide

lemma percentByte_no_slash (b : Nat) : ∀ c ∈ percentByte b, c ≠ '/' := by
  intro c hc
  unfold percentByte at hc
  rcases List.mem_cons.mp hc with h | hc
  · rw [h]; decide
  rcases List.mem_cons.mp hc with h | hc
  · rw [h]; exact hexDigitUpper_ne_slash (Nat.mod_lt _ (by decide))
  rcases List.mem_cons.mp hc with h | hc
  · rw [h]; exact hexDigitUpper_ne_slash (Nat.mod_lt _ (by decide))
  · exact absurd hc (List.not_mem_nil c)

lemma isUnreserved_ne_slash {c : Char} (h : isUnreservedQueryChar c = true) :
    c ≠ '/' := by
  intro he
  subst he
  exact absurd h (by decide)

lemma queryEscapeChar_no_slash (c : Char) : ∀ x ∈ queryEscapeChar c, x ≠ '/' := by
  intro x hx
  unfold queryEscapeChar at hx
  by_cases h1 : (c == ' ') = true
  · rw [if_pos h1] at hx
    rcases List.mem_cons.mp hx with h | hx
    · rw [h]; decide
    · exact absurd hx (List.not_mem_nil x)
  · rw [if_neg h1] at hx
    by_cases h2 : isUnreservedQueryChar c = true
    · rw [if_pos h2] at hx
      rcases List.mem_cons.mp hx with h | hx
      · rw [h]; exact isUnreserved_ne_slash h2
      · exact absurd hx (List.not_mem_nil x)
    · rw [if_neg h2] at hx
      rcases List.mem_flatten.mp hx with ⟨l, hl, hxl⟩
      rcases List.mem_map.mp hl with ⟨b, hb, hbl⟩
      rw [← hbl] at hxl
      exact percentByte_no_slash b x hxl

lemma queryEscape_no_slash (s : String) : '/' ∉ (queryEscape s).data := by
  intro hmem
  unfold queryEscape at hmem
  rw [show (String.mk ((s.data.map queryEscapeChar).flatten)).data =
      (s.data.map queryEscapeChar).flatten from rfl] at hmem
  rcases List.mem_flatten.mp hmem with ⟨l, hl, hxl⟩
  rcases List.mem_map.mp hl with ⟨c, hc, hcl⟩
  rw [← hcl] at hxl
  exact queryEscapeChar_no_slash c '/' hxl rfl

/-- Concatenation of character segments with a separator between consecutive
segments; the shape into which well-formed paths decompose. -/
def joinChars (sep : Char) : List (List Char) → List Char
  | [] => []
  | [l] => l
  | l :: ls => l ++ sep :: joinChars sep ls

lemma splitCharsAux_joinChars (sep : Char) :
    ∀ segs : List (List Char), segs ≠ [] → (∀ l ∈ segs, sep ∉ l) →
      splitCharsAux sep (joinChars sep segs) [] = segs := by
  intro segs
  induction segs with
  | nil => intro h _; exact absurd rfl h
  | cons l ls ih =>
      intro _ hall
      cases ls with
      | nil =>
          rw [show joinChars sep [l] = l from rfl,
            splitCharsAux_no_sep sep l (hall l (by simp)) []]
          simp
      | cons m ms =>
          rw [show joinChars sep (l :: m :: ms) =
              l ++ sep :: joinChars sep (m :: ms) from rfl,
            splitCharsAux_sep_append sep l (hall l (by simp)) _ [],
            ih (by simp) (fun x hx => hall x (by simp [hx]))]
          simp

lemma goSplit_joinChars (sep : Char) (segs : List (List Char)) (hne : segs ≠ [])
    (hall : ∀ l ∈ segs, sep ∉ l) :
    goSplit sep (String.mk (joinChars sep segs)) = segs.map String.mk := by
  unfold goSplit
  rw [show (String.mk (joinChars sep segs)).data = joinChars sep segs from rfl,
    splitCharsAux_joinChars sep segs hne hall]

/-- C6 counterexample: the integer-code client's SearchInstances interpolates
the search string verbatim, so the input "a/b" injects an extra path segment
(the path splits into five segments instead of the four produced for an
ordinary search term), while url.QueryEscape would have produced the single
well-formed segment "a%2Fb" — refuting the claim that every facade method
percent-encodes its free-form string parameters. -/
theorem searchInstances_no_escaping :
    SearchInstancesPath "a/b" = "/api/search/a/b" ∧
    goSplit '/' (SearchInstancesPath "a/b") = ["", "api", "search", "a", "b"] ∧
    goSplit '/' (SearchInstancesPath "ab") = ["", "api", "search", "ab"] ∧
    queryEscape "a/b" = "a%2Fb" :=
  ⟨rfl, rfl, rfl, rfl⟩

/-- C6 amended: the string-code client's facade methods (Search,
BeginDowntime) percent-encode their free-form parameters via
url.QueryEscape, whose output never contains a path separator, so those
built paths always decompose into the expected fixed number of segments; the
integer-code client's SearchInstances, however, embeds the search string
verbatim in the path. -/
theorem escaped_paths_wellformed (s owner reason host : String) (port : Int)
    (hh : '/' ∉ host.data) :
    '/' ∉ (queryEscape s).data ∧
    goSplit '/' (SearchPath s) = ["", "search", queryEscape s] ∧
    goSplit '/' (BeginDowntimePath host port owner reason none) =
      ["", "begin-downtime", host, String.mk (intDecimal port),
        queryEscape owner, queryEscape reason] ∧
    SearchInstancesPath s = "/api/search/" ++ s := by
  refine ⟨queryEscape_no_slash s, ?_, ?_, rfl⟩
  · rw [show SearchPath s =
        String.mk (joinChars '/' [[], "search".data, (queryEscape s).data])
      from rfl]
    rw [goSplit_joinChars '/' _ (by simp) ?_]
    · rfl
    · intro l hl
      rcases List.mem_cons.mp hl with h | hl
      · rw [h]; simp
      rcases List.mem_cons.mp hl with h | hl
      · rw [h]; decide
      rcases List.mem_cons.mp hl with h | hl
      · rw [h]; exact queryEscape_no_slash s
      · exact absurd hl (List.not_mem_nil l)
  · have hpath : BeginDowntimePath host port owner reason none =
        String.mk (joinChars '/' [[], "begin-downtime".data, host.data,
          intDecimal port, (queryEscape owner).data, (queryEscape reason).data]) := by
      apply stringDataExt
      show ("/begin-downtime/" ++ host ++ "/" ++ String.mk (intDecimal port) ++ "/" ++
          queryEscape owner ++ "/" ++ queryEscape reason ++ "").data = _
      simp [String.data_append, joinChars]
    rw [hpath, goSplit_joinChars '/' _ (by simp) ?_]
    · rfl
    · intro l hl
      rcases List.mem_cons.mp hl with h | hl
      · rw [h]; simp
      rcases List.mem_cons.mp hl with h | hl
      · rw [h]; decide
      rcases List.mem_cons.mp hl with h | hl
      · rw [h]; exact hh
      rcases List.mem_cons.mp hl with h | hl
      · rw [h]; exact intDecimal_ne (by decide) (by decide)
      rcases List.mem_cons.mp hl with h | hl
      · rw [h]; exact queryEscape_no_slash owner
      rcases List.mem_cons.mp hl with h | hl
      · rw [h]; exact queryEscape_no_slash reason
      · exact absurd hl (List.not_mem_nil l)

/-- Witness for C6 amended: a search term with a slash stays one segment
after escaping, and a downtime request with a spaced owner and slashed
reason produces exactly the six expected path segments. -/
theorem escaped_paths_wellformed_witness :
    goSplit '/' (SearchPath "a/b") = ["", "search", "a%2Fb"] ∧
    goSplit '/' (BeginDowntimePath "db1" 3306 "the admin" "why/not" none) =
      ["", "begin-downtime", "db1", "3306", "the+admin", "why%2Fnot"] := by
  have h := escaped_paths_wellformed "a/b" "the admin" "why/not" "db1" 3306
    (by decide)
  refine ⟨?_, ?_⟩
  · rw [h.2.1]
    rfl
  · rw [h.2.2.1]
    rfl

end Orchestrator
